import Mathlib

set_option autoImplicit false

/-!
Verification development for the qsim core (gate fuser, AVX state-space
kernels, runner).  The C++ sources `fuser_basic.h`, `statespace_avx.h` and
`run_qsim.h` are embedded shallowly: gate pointers become indices into the
input gate list, the amplitude buffer becomes a size-tagged valuation of raw
float slots, loops become structural recursions (with an explicit iteration
bound where the C++ loop is a while-loop), and the IO collaborator becomes an
error flag / error counter in the result.
-/

namespace Qsim

/-- Gate kinds.  `gate.h` is external to the embedded sources; per the spec the
discriminator only distinguishes measurement gates from ordinary unitaries. -/
inductive GateKind where
  | measurement : GateKind
  | unitary : GateKind
deriving DecidableEq

/-- A gate of the input stream (`gate.h` / spec section 3); the matrix is
irrelevant to the fuser and runner and is omitted. -/
structure Gate where
  kind : GateKind
  time : ℕ
  num_qubits : ℕ
  qubits : List ℕ
  unfusible : Bool
deriving DecidableEq

/-- Default gate, standing for the value behind an invalid pointer. -/
def gate0 : Gate := ⟨GateKind.unitary, 0, 0, [], false⟩

/-- A fused gate (`GateFused` in `fuser.h`): `parent` is the index of the
anchor gate (the C++ `const Gate*` member) and `gates` the indices of the
member gates, in absorption order. -/
structure GateFused where
  kind : GateKind
  time : ℕ
  num_qubits : ℕ
  qubits : List ℕ
  parent : ℕ
  gates : List ℕ
deriving DecidableEq

/-- Default fused gate (value behind an out-of-range vector read). -/
def fg0 : GateFused := ⟨GateKind.unitary, 0, 0, [], 0, []⟩

namespace BasicGateFuser

/-- Embeds `times2.size() == 0 || times2.back() < t` from
`BasicGateFuser::MergeWithMeasurementTimes`. -/
def lastLt (acc : List ℕ) (t : ℕ) : Bool :=
  match acc.getLast? with
  | none => true
  | some b => decide (b < t)

/-- The inner skip loop `while (last < times.size() && times[last] <= prev)
++last;` of `MergeWithMeasurementTimes`, on the remaining suffix of `times`. -/
def skipLe (prev : ℕ) : List ℕ → List ℕ
  | [] => []
  | t :: rest => if t ≤ prev then skipLe prev rest else t :: rest

/-- The push loop `while (last < times.size() && times[last] <= gate.time)`
of `MergeWithMeasurementTimes`; each iteration consumes at least the head of
the remaining suffix, so `fuel` = suffix length bounds the iteration count. -/
def splitLoop (gtime : ℕ) : ℕ → List ℕ → List ℕ → List ℕ × List ℕ
  | 0, rem, acc => (acc, rem)
  | _ + 1, [], acc => (acc, [])
  | fuel + 1, t :: rest, acc =>
    if t ≤ gtime then splitLoop gtime fuel (skipLe t rest) (acc ++ [t])
    else (acc, t :: rest)

/-- The per-gate body of the loop in `MergeWithMeasurementTimes`: `rem` is the
unconsumed suffix of `times`, `acc` is `times2`. -/
def mergeLoop : List Gate → List ℕ → List ℕ → List ℕ × List ℕ
  | [], rem, acc => (acc, rem)
  | g :: rest, rem, acc =>
    let acc1 :=
      if g.kind = GateKind.measurement ∧ lastLt acc g.time then acc ++ [g.time]
      else acc
    match rem with
    | [] => mergeLoop rest [] acc1
    | t :: more =>
      if t < g.time then
        let p := splitLoop g.time (t :: more).length (t :: more) acc1
        mergeLoop rest p.2 p.1
      else mergeLoop rest (t :: more) acc1

/-- Embeds `BasicGateFuser::MergeWithMeasurementTimes`. -/
def MergeWithMeasurementTimes (gs : List Gate) (times : List ℕ) : List ℕ :=
  let times2 := (mergeLoop gs times []).1
  match gs.getLast? with
  | none => times2
  | some g => if lastLt times2 g.time then times2 ++ [g.time] else times2

/-- Embeds `wl[k]->num_qubits == 1 && !wl[k]->unfusible`. -/
def fusible (gs : List Gate) (i : ℕ) : Bool :=
  decide ((gs.getD i gate0).num_qubits = 1) && !(gs.getD i gate0).unfusible

/-- Embeds `BasicGateFuser::Advance`: absorb 1-qubit fusible gates from lattice `wl`
starting at cursor `k`, appending them to the member list.  The loop runs at
most `wl.length` times; `fuel` is initialised to that bound by all callers. -/
def Advance (gs : List Gate) : ℕ → ℕ → List ℕ → List ℕ → ℕ × List ℕ
  | 0, k, _, acc => (k, acc)
  | fuel + 1, k, wl, acc =>
    if k < wl.length ∧ fusible gs (wl.getD k 0) then
      Advance gs fuel (k + 1) wl (acc ++ [wl.getD k 0])
    else (k, acc)

/-- Embeds `BasicGateFuser::Done`. -/
def Done (gs : List Gate) (k t : ℕ) (wl : List ℕ) : Bool :=
  decide (wl.length ≤ k) || decide (t < (gs.getD (wl.getD k 0) gate0).time)

/-- Embeds `BasicGateFuser::NextGate`: pointer equality becomes index equality. -/
def NextGate (k1 : ℕ) (wl1 : List ℕ) (k2 : ℕ) (wl2 : List ℕ) : Bool :=
  decide (k1 < wl1.length) && decide (k2 < wl2.length) &&
    decide (wl1.getD k1 0 = wl2.getD k2 0)

/-- Lookup in the `measurement_gates` map (a `std::map<unsigned, vector>`),
kept as an association list. -/
def measFind (meas : List (ℕ × List ℕ)) (t : ℕ) : List ℕ :=
  match meas.find? (fun p => p.1 = t) with
  | none => []
  | some p => p.2

/-- Embeds `measurement_gates[t].push_back(i)` (creating the entry if absent). -/
def measInsert (meas : List (ℕ × List ℕ)) (t : ℕ) (i : ℕ) : List (ℕ × List ℕ) :=
  match meas with
  | [] => [(t, [i])]
  | p :: rest =>
    if p.1 = t then (p.1, p.2 ++ [i]) :: rest else p :: measInsert rest t i

/-- Embeds `gates_lat[q].push_back(&gate)`. -/
def latPush (lat : List (List ℕ)) (q : ℕ) (i : ℕ) : List (List ℕ) :=
  lat.set q ((lat.getD q []) ++ [i])

/-- Classification of one scanned gate into `gates_seq` / `gates_lat` /
`measurement_gates` (`fuser_basic.h` lines 153-170). -/
def classify (g : Gate) (i : ℕ) (seq : List ℕ) (lat : List (List ℕ))
    (meas : List (ℕ × List ℕ)) :
    List ℕ × List (List ℕ) × List (ℕ × List ℕ) :=
  if g.kind = GateKind.measurement then
    let m := measFind meas g.time
    ((if m = [] then seq ++ [i] else seq), lat, measInsert meas g.time i)
  else if g.num_qubits = 1 then
    ((if g.unfusible then seq ++ [i] else seq),
      latPush lat (g.qubits.getD 0 0) i, meas)
  else if g.num_qubits = 2 then
    (seq ++ [i],
      latPush (latPush lat (g.qubits.getD 0 0) i) (g.qubits.getD 1 0) i, meas)
  else (seq, lat, meas)

/-- Result of scanning one fusion window (`fuser_basic.h` lines 138-171):
the filled `gates_seq` / `gates_lat` / `measurement_gates`, the unconsumed
gate suffix with its base index (the final `gate_it`), and whether the
out-of-order error fired. -/
structure ScanResult where
  seq : List ℕ
  lat : List (List ℕ)
  meas : List (ℕ × List ℕ)
  rest : List Gate
  restBase : ℕ
  err : Bool
deriving DecidableEq

/-- The window-filling loop (`fuser_basic.h` lines 138-171): `pending` is the
gate suffix starting at absolute index `base`; `prev` is `prev_time`. -/
def scanWindow (bound : ℕ) :
    List Gate → ℕ → ℕ → List ℕ → List (List ℕ) → List (ℕ × List ℕ) → ScanResult
  | [], base, _, seq, lat, meas => ⟨seq, lat, meas, [], base, false⟩
  | g :: rest, base, prev, seq, lat, meas =>
    if bound < g.time then ⟨seq, lat, meas, g :: rest, base, false⟩
    else if g.time < prev then ⟨seq, lat, meas, g :: rest, base, true⟩
    else
      match classify g base seq lat meas with
      | (seq2, lat2, meas2) => scanWindow bound rest (base + 1) g.time seq2 lat2 meas2

/-- The do-while loop of the 2-qubit anchor branch (`fuser_basic.h` lines
199-208).  Each iteration strictly advances the `q0` cursor, so the lattice
length bounds the iteration count (`fuel`). -/
def fuseTwoLoop (gs : List Gate) (wl0 wl1 : List ℕ) :
    ℕ → ℕ → ℕ → List ℕ → ℕ × ℕ × List ℕ
  | 0, l0, l1, acc => (l0, l1, acc)
  | fuel + 1, l0, l1, acc =>
    let a0 := Advance gs wl0.length l0 wl0 acc
    let a1 := Advance gs wl1.length l1 wl1 a0.2
    let acc2 := a1.2 ++ [wl0.getD a0.1 0]
    let b0 := Advance gs wl0.length (a0.1 + 1) wl0 acc2
    let b1 := Advance gs wl1.length (a1.1 + 1) wl1 b0.2
    if NextGate b0.1 wl0 b1.1 wl1 then fuseTwoLoop gs wl0 wl1 fuel b0.1 b1.1 b1.2
    else (b0.1, b1.1, b1.2)

/-- State of the anchor-resolution pass over `gates_seq`. -/
structure FuseState where
  last : List ℕ
  fused : List GateFused
  delayed : Option ℕ
deriving DecidableEq

/-- The anchor-resolution loop `for (auto pgate : gates_seq)`
(`fuser_basic.h` lines 178-212). -/
def fuseSeq (gs : List Gate) (lat : List (List ℕ)) : List ℕ → FuseState → FuseState
  | [], st => st
  | i :: rest, st =>
    let g := gs.getD i gate0
    if g.kind = GateKind.measurement then
      fuseSeq gs lat rest ⟨st.last, st.fused, some i⟩
    else if g.num_qubits = 1 then
      let q0 := g.qubits.getD 0 0
      let wl := lat.getD q0 []
      let a := Advance gs wl.length (st.last.getD q0 0) wl []
      let mem := a.2 ++ [wl.getD a.1 0]
      let b := Advance gs wl.length (a.1 + 1) wl mem
      let gf : GateFused := ⟨g.kind, g.time, 1, [q0], i, b.2⟩
      fuseSeq gs lat rest ⟨st.last.set q0 b.1, st.fused ++ [gf], st.delayed⟩
    else if g.num_qubits = 2 then
      let q0 := g.qubits.getD 0 0
      let q1 := g.qubits.getD 1 0
      let wl0 := lat.getD q0 []
      let wl1 := lat.getD q1 []
      if Done gs (st.last.getD q0 0) g.time wl0 then fuseSeq gs lat rest st
      else
        let r := fuseTwoLoop gs wl0 wl1 (wl0.length + 1)
          (st.last.getD q0 0) (st.last.getD q1 0) []
        let gf : GateFused := ⟨g.kind, g.time, 2, [q0, q1], i, r.2.2⟩
        fuseSeq gs lat rest ⟨(st.last.set q0 r.1).set q1 r.2.1, st.fused ++ [gf], st.delayed⟩
    else fuseSeq gs lat rest st

/-- One step of the orphaned-qubit loop (`fuser_basic.h` lines 214-229). -/
def orphanOne (gs : List Gate) (lat : List (List ℕ)) (last : List ℕ) (q : ℕ)
    (fused : List GateFused) : List GateFused :=
  let wl := lat.getD q []
  let l := last.getD q 0
  if l = wl.length then fused
  else
    let i := wl.getD l 0
    let g := gs.getD i gate0
    let a := Advance gs wl.length (l + 1) wl [i]
    fused ++ [⟨g.kind, g.time, 1, [q], i, a.2⟩]

/-- Emission of the delayed measurement gate (`fuser_basic.h` lines 231-247). -/
def delayedMeasure (gs : List Gate) (meas : List (ℕ × List ℕ)) (d : Option ℕ)
    (fused : List GateFused) : List GateFused :=
  match d with
  | none => fused
  | some i =>
    let g := gs.getD i gate0
    let lst := measFind meas g.time
    let nq := (lst.map (fun j => (gs.getD j gate0).num_qubits)).sum
    let qs := (lst.map (fun j => (gs.getD j gate0).qubits)).flatten
    fused ++ [⟨g.kind, g.time, nq, qs, i, []⟩]

/-- The window loop `for (std::size_t l = 0; l < times.size(); ++l)`
(`fuser_basic.h` lines 126-250), threading the unconsumed gate suffix
(`gate_it`), the measurement map, and the fused output. -/
def FuseWindows (gs : List Gate) (num_qubits : ℕ) :
    List ℕ → List Gate → ℕ → List (ℕ × List ℕ) → List GateFused →
    List GateFused × Bool
  | [], _, _, _, fused => (fused, false)
  | bound :: restTimes, pending, base, meas, fused =>
    let prev := (pending.headD gate0).time
    let sr := scanWindow bound pending base prev []
      (List.replicate num_qubits []) meas
    if sr.err then ([], true)
    else
      let st := fuseSeq gs sr.lat sr.seq ⟨List.replicate num_qubits 0, fused, none⟩
      let fused2 := (List.range num_qubits).foldl
        (fun f q => orphanOne gs sr.lat st.last q f) st.fused
      let fused3 := delayedMeasure gs sr.meas st.delayed fused2
      if sr.rest.isEmpty then (fused3, false)
      else FuseWindows gs num_qubits restTimes sr.rest sr.restBase sr.meas fused3

/-- Embeds `BasicGateFuser::FuseGates` (`fuser_basic.h` lines 98-253).  Returns the
fused-gate list together with a flag recording whether `IO::errorf` was
called. -/
def FuseGates (num_qubits : ℕ) (gs : List Gate) (times_to_split_at : List ℕ) :
    List GateFused × Bool :=
  if gs.isEmpty then ([], false)
  else FuseWindows gs num_qubits (MergeWithMeasurementTimes gs times_to_split_at)
    gs 0 [] []

end BasicGateFuser

/-- A circuit, as consumed by `QSimRunner::Run`. -/
structure Circuit where
  num_qubits : ℕ
  gates : List Gate
deriving DecidableEq

namespace QSimRunner

/-- Result of a run: the returned bool, the trace of measurement-callback
invocations as pairs `(cur_time_index, fused gate index)`, and the number of
`IO::errorf` calls observed. -/
structure RunResult where
  ok : Bool
  trace : List (ℕ × ℕ)
  errors : ℕ
deriving DecidableEq

/-- The fused-gate application loop of `QSimRunner::Run` (`run_qsim.h` lines
87-106), recording the callback invocations.  `times.getD cur 0` models the
read `times_to_measure_at[cur_time_index]`, which in the C++ is performed
without a bounds check (out of range it is undefined behaviour; the model
reads 0).  `fuel` is initialised to the number of fused gates, which the
index `i` never reaches before the fuel runs out. -/
def runLoopAux (fused : List GateFused) (times : List ℕ) :
    ℕ → ℕ → ℕ → List (ℕ × ℕ)
  | 0, _, _ => []
  | fuel + 1, i, cur =>
    if fused.length ≤ i then []
    else
      let t := times.getD cur 0
      if i = fused.length - 1 ∨ t < (fused.getD (i + 1) fg0).time then
        (cur, i) :: runLoopAux fused times fuel (i + 1) (cur + 1)
      else runLoopAux fused times fuel (i + 1) cur

/-- The loop of `QSimRunner::Run` started at gate 0, window index 0. -/
def runLoop (fused : List GateFused) (times : List ℕ) : List (ℕ × ℕ) :=
  runLoopAux fused times fused.length 0 0

/-- Embeds `QSimRunner::Run` (`run_qsim.h` lines 59-114).  `allocOk` models whether
`StateSpace::CreateState` succeeded (`IsNull` check); the amplitude updates
performed by `ApplyFusedGate` do not influence the control flow, the return
value, or the callback trace, and are not tracked here. -/
def Run (allocOk : Bool) (times_to_measure_at : List ℕ) (circuit : Circuit) :
    RunResult :=
  if allocOk = false then ⟨false, [], 1⟩
  else
    let r := BasicGateFuser.FuseGates circuit.num_qubits circuit.gates
      times_to_measure_at
    ⟨true, runLoop r.1 times_to_measure_at, if r.2 then 1 else 0⟩

end QSimRunner

namespace StateSpaceAVX

/-- Embeds `StateSpaceAVX::MinimumRawSize` of `2 * (1 << num_qubits)`:
the raw buffer length in floats. -/
def rawSize (num_qubits : ℕ) : ℕ := max 16 (2 * 2 ^ num_qubits)

/-- The raw amplitude buffer: `size` raw float slots in the AVX-internal
layout (block `k` of 16 floats holds the real parts of amplitudes
`8k..8k+7` followed by their imaginary parts); floats are idealised as real
numbers.  `val` is only meaningful on slots `< size`. -/
structure RawState where
  size : ℕ
  val : ℕ → ℝ

/-- Embeds `detail::GetZeroMaskAVX` (`statespace_avx.h` lines 33-46), lane `j` of the
result: `s1` holds the 64-bit compares for offsets `i+0,i+2,i+4,i+6`, `s2`
those for `i+1,i+3,i+5,i+7`, and the `_mm256_blend_epi32` with pattern
10101010 interleaves them so that 32-bit lane `j` answers
`((i + j) & mask) == bits`. -/
def GetZeroMaskAVX (i mask bits : ℕ) (j : ℕ) : Bool :=
  if j % 2 = 0 then ((i + 2 * (j / 2)) &&& mask) == bits
  else ((i + 2 * (j / 2) + 1) &&& mask) == bits

/-- Embeds `_mm256_maskload_ps` on one lane: the value if the lane mask is set,
otherwise 0. -/
noncomputable def maskload (c : Bool) (x : ℝ) : ℝ := if c then x else 0

/-- The first pass `f1` of `CollapseState` reduced over all blocks
(`statespace_avx.h` lines 409-422): the squared norm of the amplitudes
surviving the measurement `(mask, bits)`. -/
noncomputable def survivingMass (mask bits : ℕ) (s : RawState) : ℝ :=
  Finset.sum (Finset.range (s.size / 16)) fun k =>
    Finset.sum (Finset.range 8) fun j =>
      maskload (GetZeroMaskAVX (8 * k) mask bits j) (s.val (16 * k + j)) ^ 2 +
        maskload (GetZeroMaskAVX (8 * k) mask bits j) (s.val (16 * k + 8 + j)) ^ 2

/-- Embeds `StateSpaceAVX::CollapseState` (`statespace_avx.h` lines 404-444): checks
only the buffer size, then zeroes non-surviving amplitudes and scales the
rest by `renorm = 1/sqrt(norm)` (pass `f2`).  Slot `p = 16k + t` is lane
`t % 8` of block `k` (real part if `t < 8`, imaginary if `t ≥ 8`). -/
noncomputable def CollapseState (num_qubits mask bits : ℕ) (s : RawState) :
    Bool × RawState :=
  if s.size ≠ rawSize num_qubits then (false, s)
  else
    let renorm := 1 / Real.sqrt (survivingMass mask bits s)
    (true, ⟨s.size, fun p =>
      if p < s.size then
        maskload (GetZeroMaskAVX (8 * (p / 16)) mask bits (p % 16 % 8)) (s.val p)
          * renorm
      else s.val p⟩)

/-- Embeds `StateSpaceAVX::GetAmpl`: amplitude `i` lives at raw slots
`16*(i/8) + i%8` (real) and `+8` (imaginary). -/
noncomputable def GetAmpl (s : RawState) (i : ℕ) : ℝ × ℝ :=
  (s.val (16 * (i / 8) + i % 8), s.val (16 * (i / 8) + i % 8 + 8))

/-- The per-block permutation of the generic (`num_qubits ∉ {1, 2}`) branch of
`InternalToNormalOrder` (`statespace_avx.h` lines 108-125), solved for the
slot being written: slot `16k` and `16k+15` are untouched, odd slot
`16k + 2i+1` receives `im[i] = old (16k + i + 8)`, and even slot `16k + 2i+2`
receives `re[i] = old (16k + i + 1)`. -/
noncomputable def i2nBlock (v : ℕ → ℝ) (p : ℕ) : ℝ :=
  let k := p / 16
  let t := p % 16
  if t = 0 then v p
  else if t = 15 then v p
  else if t % 2 = 1 then v (16 * k + (t - 1) / 2 + 8)
  else v (16 * k + t / 2)

/-- The per-block permutation of the generic branch of
`NormalToInternalOrder` (`statespace_avx.h` lines 163-180): slot `16k + i + 1`
(for `i < 7`) receives `re[i] = old (16k + 2i+2)` and slot `16k + i + 8`
receives `im[i] = old (16k + 2i+1)`. -/
noncomputable def n2iBlock (v : ℕ → ℝ) (p : ℕ) : ℝ :=
  let k := p / 16
  let t := p % 16
  if t = 0 then v p
  else if t = 15 then v p
  else if t ≤ 7 then v (16 * k + 2 * t)
  else v (16 * k + 2 * (t - 8) + 1)

/-- Embeds `StateSpaceAVX::InternalToNormalOrder` (`statespace_avx.h` lines 78-129).
The `num_qubits == 1` and `== 2` branches perform the written sequence of
scalar moves (all reads are of original values) and zero the tail of the
single block; the generic branch applies `i2nBlock` to every block. -/
noncomputable def InternalToNormalOrder (num_qubits : ℕ) (s : RawState) :
    Bool × RawState :=
  if s.size ≠ rawSize num_qubits then (false, s)
  else if num_qubits = 1 then
    (true, ⟨s.size, fun p =>
      if p = 2 then s.val 1
      else if p = 1 then s.val 8
      else if p = 3 then s.val 9
      else if 4 ≤ p ∧ p < 16 then 0
      else s.val p⟩)
  else if num_qubits = 2 then
    (true, ⟨s.size, fun p =>
      if p = 6 then s.val 3
      else if p = 4 then s.val 2
      else if p = 2 then s.val 1
      else if p = 1 then s.val 8
      else if p = 3 then s.val 9
      else if p = 5 then s.val 10
      else if p = 7 then s.val 11
      else if 8 ≤ p ∧ p < 16 then 0
      else s.val p⟩)
  else
    (true, ⟨s.size, fun p => if p < s.size then i2nBlock s.val p else s.val p⟩)

/-- Embeds `StateSpaceAVX::NormalToInternalOrder` (`statespace_avx.h` lines
131-184). -/
noncomputable def NormalToInternalOrder (num_qubits : ℕ) (s : RawState) :
    Bool × RawState :=
  if s.size ≠ rawSize num_qubits then (false, s)
  else if num_qubits = 1 then
    (true, ⟨s.size, fun p =>
      if p = 8 then s.val 1
      else if p = 1 then s.val 2
      else if p = 9 then s.val 3
      else if 2 ≤ p ∧ p < 8 then 0
      else if 10 ≤ p ∧ p < 16 then 0
      else s.val p⟩)
  else if num_qubits = 2 then
    (true, ⟨s.size, fun p =>
      if p = 8 then s.val 1
      else if p = 9 then s.val 3
      else if p = 10 then s.val 5
      else if p = 11 then s.val 7
      else if p = 1 then s.val 2
      else if p = 2 then s.val 4
      else if p = 3 then s.val 6
      else if 4 ≤ p ∧ p < 8 then 0
      else if 12 ≤ p ∧ p < 16 then 0
      else s.val p⟩)
  else
    (true, ⟨s.size, fun p => if p < s.size then n2iBlock s.val p else s.val p⟩)

/-- The amplitude buffer for the `Sample` kernel: the same raw layout, with
the floating-point scalars idealised as an arbitrary linearly ordered
commutative ring `α` (the C++ kernel is generic in the numeric type as well),
so that the kernel stays executable for concrete ordered rings. -/
structure RawStateG (α : Type) where
  size : ℕ
  val : ℕ → α

variable {α : Type} [LinearOrderedCommRing α]

/-- The first loop of `StateSpaceAVX::Sample` (`statespace_avx.h` lines
372-378): the total squared norm. -/
def sampleNorm (s : RawStateG α) : α :=
  ((List.range (s.size / 16)).map fun k =>
    ((List.range 8).map fun j =>
      s.val (16 * k + j) * s.val (16 * k + j) +
        s.val (16 * k + 8 + j) * s.val (16 * k + 8 + j)).sum).sum

/-- The emission while-loop `while (rs[m] < csum && m < num_samples)`
(`statespace_avx.h` line 391).  Evaluating the loop condition reads `rs[m]`
BEFORE testing `m < num_samples` (C++ `&&` evaluates left to right), so every
evaluation appends `m` to the read log; an out-of-range read is modelled as
reading 0.  The body runs at most `num_samples` times, so `fuel` =
`num_samples + 1` covers every execution. -/
def sampleWhile (rs : List α) (num_samples : ℕ) (csum : α) (kj : ℕ) :
    ℕ → ℕ → List ℕ → List ℕ → ℕ × List ℕ × List ℕ
  | 0, m, bs, log => (m, bs, log)
  | fuel + 1, m, bs, log =>
    let log2 := log ++ [m]
    if rs.getD m 0 < csum ∧ m < num_samples then
      sampleWhile rs num_samples csum kj fuel (m + 1) (bs ++ [kj]) log2
    else (m, bs, log2)

/-- The emission double loop of `Sample` (`statespace_avx.h` lines 386-396):
returns `(m, csum, bitstrings, read log)`. -/
def sampleEmit (s : RawStateG α) (rs : List α) (num_samples : ℕ) :
    ℕ × α × List ℕ × List ℕ :=
  (List.range (s.size / 16)).foldl (fun st k =>
    (List.range 8).foldl (fun st2 j =>
      let re := s.val (16 * k + j)
      let im := s.val (16 * k + 8 + j)
      let csum := st2.2.1 + (re * re + im * im)
      let w := sampleWhile rs num_samples csum (8 * k + j) (num_samples + 1)
        st2.1 st2.2.2.1 st2.2.2.2
      (w.1, csum, w.2.1, w.2.2)) st) (0, 0, [], [])

/-- Embeds `StateSpaceAVX::Sample` (`statespace_avx.h` lines 362-400) instrumented
with the log of indices at which `rs` is read.  `GenerateRandomValues` lives
in `util.h`, which is not part of the embedded sources; modelled from the
spec ("the sampler accepts a seed and must be reproducible for a fixed
(seed, buffer) pair") as an arbitrary pure function `grv` of
`(num_samples, seed, norm)`. -/
def SampleWithLog (num_qubits : ℕ) (grv : ℕ → ℕ → α → List α) (s : RawStateG α)
    (num_samples : ℕ) (seed : ℕ) : List ℕ × List ℕ :=
  if s.size = rawSize num_qubits ∧ 0 < num_samples then
    let rs := grv num_samples seed (sampleNorm s)
    let e := sampleEmit s rs num_samples
    (e.2.2.1, e.2.2.2)
  else ([], [])

/-- The bitstring list returned by `StateSpaceAVX::Sample`. -/
def Sample (num_qubits : ℕ) (grv : ℕ → ℕ → α → List α) (s : RawStateG α)
    (num_samples : ℕ) (seed : ℕ) : List ℕ :=
  (SampleWithLog num_qubits grv s num_samples seed).1

/-- The indices at which the emission loop of `Sample` reads the
random-draw vector `rs`. -/
def sampleReadLog (num_qubits : ℕ) (grv : ℕ → ℕ → α → List α) (s : RawStateG α)
    (num_samples : ℕ) (seed : ℕ) : List ℕ :=
  (SampleWithLog num_qubits grv s num_samples seed).2

end StateSpaceAVX

/-! ## Concrete inputs used by counterexamples and witnesses -/

open BasicGateFuser StateSpaceAVX

/-- Three fusible 1-qubit gates on qubit 0 with times `[0, 2, 1]` (the spec's
out-of-order scenario). -/
def gatesZeroTwoOne : List Gate :=
  [⟨GateKind.unitary, 0, 1, [0], false⟩,
   ⟨GateKind.unitary, 2, 1, [0], false⟩,
   ⟨GateKind.unitary, 1, 1, [0], false⟩]

/-- Four fusible 1-qubit gates on qubit 0 with times `[0, 2, 1, 3]`; here the
descent 2 → 1 happens inside the scanned window and is detected. -/
def gatesZeroTwoOneThree : List Gate :=
  [⟨GateKind.unitary, 0, 1, [0], false⟩,
   ⟨GateKind.unitary, 2, 1, [0], false⟩,
   ⟨GateKind.unitary, 1, 1, [0], false⟩,
   ⟨GateKind.unitary, 3, 1, [0], false⟩]

/-- Three 1-qubit gates on qubit 0 with times `[2, 1, 3]`: the descent is at
the first adjacent pair. -/
def gatesTwoOneThree : List Gate :=
  [⟨GateKind.unitary, 2, 1, [0], false⟩,
   ⟨GateKind.unitary, 1, 1, [0], false⟩,
   ⟨GateKind.unitary, 3, 1, [0], false⟩]

/-- The unfusible-split scenario: three 1-qubit gates on qubit 0 at times
0, 1, 2, the middle one marked unfusible. -/
def gatesUnfusibleMid : List Gate :=
  [⟨GateKind.unitary, 0, 1, [0], false⟩,
   ⟨GateKind.unitary, 1, 1, [0], true⟩,
   ⟨GateKind.unitary, 2, 1, [0], false⟩]

/-- Four fusible 2-qubit gates, all at time 0, on qubit pairs (0,1), (0,1),
(0,2), (1,2): a time-ordered input on which the fuser's head-equality
assumption (`fuser_basic.h` line 202) fails. -/
def gatesSharedPairs : List Gate :=
  [⟨GateKind.unitary, 0, 2, [0, 1], false⟩,
   ⟨GateKind.unitary, 0, 2, [0, 1], false⟩,
   ⟨GateKind.unitary, 0, 2, [0, 2], false⟩,
   ⟨GateKind.unitary, 0, 2, [1, 2], false⟩]

/-- A single 1-qubit gate at time 0. -/
def circuitOneGate : Circuit := ⟨1, [⟨GateKind.unitary, 0, 1, [0], false⟩]⟩

/-- Two 1-qubit gates on qubit 0 at times 0 and 2. -/
def circuitGapped : Circuit :=
  ⟨1, [⟨GateKind.unitary, 0, 1, [0], false⟩, ⟨GateKind.unitary, 2, 1, [0], false⟩]⟩

/-- Integer-scalar buffer holding amplitude 1 at basis index 0. -/
def stateZ : RawStateG ℤ := ⟨16, fun p => if p = 0 then 1 else 0⟩

/-- The same buffer written differently (nonzero only at slot 0). -/
def stateZ' : RawStateG ℤ := ⟨16, fun p => if 0 < p then 0 else 1⟩

/-- A random-draw source producing the single draw 0. -/
def grvZero : ℕ → ℕ → ℤ → List ℤ := fun _ _ _ => [0]

/-- Real-scalar one-qubit buffer |0⟩: amplitude 1 at basis index 0, all
padding zero. -/
noncomputable def stateLive : RawState := ⟨16, fun p => if p = 0 then 1 else 0⟩

/-- Real-scalar buffer with amplitude 1 at basis index 1 and zero elsewhere
(raw slot 1 is the real part of amplitude 1). -/
noncomputable def stateIdx1 : RawState := ⟨16, fun p => if p = 1 then 1 else 0⟩

/-- Real-scalar buffer for one qubit whose padding slot 2 holds the value 5. -/
noncomputable def statePad : RawState := ⟨16, fun p => if p = 2 then 5 else 0⟩

/-- The raw buffer length is always a multiple of 16 (one AVX block of
8 real + 8 imaginary floats). -/
theorem rawSize_mod16 (n : ℕ) : rawSize n % 16 = 0 := by
  match n with
  | 0 => norm_num [rawSize]
  | 1 => norm_num [rawSize]
  | 2 => norm_num [rawSize]
  | 3 => norm_num [rawSize]
  | n + 4 =>
    have h : 2 * 2 ^ (n + 4) = 16 * (2 * 2 ^ n) := by ring
    have h2 : 16 ≤ 2 * 2 ^ (n + 4) := by
      rw [h]
      have : 0 < 2 * 2 ^ n := by positivity
      omega
    rw [rawSize, max_eq_right h2, h, Nat.mul_mod_right]

/-! ## Claim C1 -/

/-- Claim C1, counterexample: on gate times `[0, 2, 1]` — the spec's own
out-of-order scenario — `FuseGates` reports no error and returns a NONEMPTY
fused-gate list (the merged split list ends at the last gate's time 1, so the
window scan stops before ever seeing the descent 2 → 1, and the time-0 gate
is emitted as an orphan while the rest of the input is silently dropped). -/
theorem c1_out_of_order_undetected :
    (FuseGates 1 gatesZeroTwoOne []).2 = false ∧
      (FuseGates 1 gatesZeroTwoOne []).1 ≠ [] := by decide

/-- With no measurement gates and no requested split times, the merge loop
contributes nothing to `times2`. -/
theorem mergeLoop_no_meas :
    ∀ (gs : List Gate) (acc : List ℕ),
      (∀ g ∈ gs, g.kind ≠ GateKind.measurement) →
      mergeLoop gs [] acc = (acc, []) := by
  intro gs
  induction gs with
  | nil => intro acc _; rfl
  | cons g rest ih =>
    intro acc hm
    have hg : ¬(g.kind = GateKind.measurement ∧ lastLt acc g.time = true) := by
      intro h
      exact hm g (List.mem_cons_self g rest) h.1
    simp only [mergeLoop, if_neg hg]
    exact ih acc fun x hx => hm x (List.mem_cons_of_mem g hx)

/-- With no measurement gates and no requested split times, the effective
split-time list is exactly the last gate's time. -/
theorem merge_no_meas (gs : List Gate) (hne : gs ≠ [])
    (hm : ∀ g ∈ gs, g.kind ≠ GateKind.measurement) :
    MergeWithMeasurementTimes gs [] = [(gs.getLastD gate0).time] := by
  unfold MergeWithMeasurementTimes
  rw [mergeLoop_no_meas gs [] hm]
  obtain ⟨l, hl⟩ : ∃ l, gs.getLast? = some l := by
    have hs : gs.getLast?.isSome = true := List.getLast?_isSome.2 hne
    cases h : gs.getLast? with
    | none => rw [h] at hs; simp at hs
    | some x => exact ⟨x, rfl⟩
  rw [List.getLastD_eq_getLast?, hl]
  simp [lastLt]

/-- If the scanned gate suffix contains a time descent whose whole prefix
fits under the window bound — position `i` has `time` below the time of
position `i-1` (or below the seeded `prev_time` when `i = 0`) and positions
`0..i` all have times `≤ bound` — then the window scan reports the
out-of-order error. -/
theorem scanWindow_err_of_descent (bound : ℕ) :
    ∀ (pending : List Gate) (i prev base : ℕ) (seq : List ℕ)
      (lat : List (List ℕ)) (meas : List (ℕ × List ℕ)),
      i < pending.length →
      (∀ j ≤ i, (pending.getD j gate0).time ≤ bound) →
      (pending.getD i gate0).time <
        (if i = 0 then prev else (pending.getD (i - 1) gate0).time) →
      (scanWindow bound pending base prev seq lat meas).err = true := by
  intro pending
  induction pending with
  | nil =>
    intro i prev base seq lat meas hi _ _
    simp at hi
  | cons g rest ih =>
    intro i prev base seq lat meas hi hle hdesc
    have hg0 : g.time ≤ bound := by
      have h := hle 0 (Nat.zero_le i)
      simpa using h
    have hb : ¬(bound < g.time) := by omega
    by_cases hp : g.time < prev
    · simp [scanWindow, hb, hp]
    · rcases i with _ | i'
      · rw [if_pos rfl] at hdesc
        simp only [List.getD_cons_zero] at hdesc
        omega
      · simp only [scanWindow, if_neg hb, if_neg hp]
        rcases hc : classify g base seq lat meas with ⟨s2, l2, m2⟩
        apply ih i' g.time (base + 1)
        · simpa using hi
        · intro j hj
          have h := hle (j + 1) (by omega)
          simpa using h
        · rcases i' with _ | i''
          · rw [if_pos rfl]
            have h := hdesc
            rw [if_neg (Nat.succ_ne_zero 0)] at h
            simpa using h
          · rw [if_neg (Nat.succ_ne_zero i'')]
            have h := hdesc
            rw [if_neg (Nat.succ_ne_zero (i'' + 1))] at h
            simpa using h

/-! ## Claim C1 (continued): the amended detection guarantee -/

/-- Claim C1 (amended): the out-of-order error fires only when the descent is
scanned inside a fusion window.  For an input without measurement gates and
with an empty split list (so the single window bound is the LAST gate's
time), if some gate's time is strictly less than the previous gate's time and
every gate up to and including the descent has time at most the last gate's
time, then `FuseGates` clears its output and reports the error.  (When the
descent lies beyond the window bound it goes undetected:
`c1_out_of_order_undetected`.) -/
theorem c1_out_of_order_window_error (num_qubits : ℕ) (gs : List Gate) (i : ℕ)
    (hmeas : ∀ g ∈ gs, g.kind ≠ GateKind.measurement)
    (hi : i + 1 < gs.length)
    (hdesc : (gs.getD (i + 1) gate0).time < (gs.getD i gate0).time)
    (hbound : ∀ j ≤ i + 1, (gs.getD j gate0).time ≤ (gs.getLastD gate0).time) :
    FuseGates num_qubits gs [] = ([], true) := by
  have hne : gs ≠ [] := by
    intro h
    subst h
    simp at hi
  have hnotempty : ¬(gs.isEmpty = true) := by
    simpa [List.isEmpty_iff] using hne
  unfold FuseGates
  rw [if_neg hnotempty, merge_no_meas gs hne hmeas]
  have herr : (scanWindow (gs.getLastD gate0).time gs 0 ((gs.headD gate0).time)
      [] (List.replicate num_qubits []) []).err = true := by
    apply scanWindow_err_of_descent (gs.getLastD gate0).time gs (i + 1)
      ((gs.headD gate0).time) 0 [] (List.replicate num_qubits []) [] hi hbound
    rw [if_neg (Nat.succ_ne_zero i)]
    simpa using hdesc
  simp only [FuseWindows]
  rw [herr]
  simp

/-- Witness for `c1_out_of_order_window_error`: gate times `[2, 1, 3]` — the
descent 2 → 1 is inside the window bounded by the last time 3, so the fuser
errors with empty output. -/
theorem c1_out_of_order_window_error_witness :
    FuseGates 1 gatesTwoOneThree [] = ([], true) :=
  c1_out_of_order_window_error 1 gatesTwoOneThree 0 (by decide) (by decide)
    (by decide) (by decide)

/-! ## Claim C2 -/

/-- Claim C2, counterexample: on gate times `[0, 2, 1, 3]` with measurement
window `[3]` the fuser detects the out-of-order input and reports an error
(`errors = 1`), yet `QSimRunner::Run` still returns `true` — the runner never
inspects the fuser's outcome, so the first reported error does not stop the
run with `false`. -/
theorem c2_fuser_error_not_propagated :
    (FuseGates 1 gatesZeroTwoOneThree [3]).2 = true ∧
      QSimRunner.Run true [3] ⟨1, gatesZeroTwoOneThree⟩ = ⟨true, [], 1⟩ := by
  decide

/-- Claim C2 (amended): `QSimRunner::Run` returns `false` exactly when state
allocation fails (the `IsNull` check); in that case it reports the error and
performs no work.  Errors reported by the fuser are not propagated: the run
proceeds with the (empty) fused-gate list and still returns `true`. -/
theorem c2_run_ok_iff_alloc (allocOk : Bool) (times : List ℕ) (c : Circuit) :
    (QSimRunner.Run allocOk times c).ok = allocOk ∧
      (allocOk = false →
        QSimRunner.Run allocOk times c = ⟨false, [], 1⟩) := by
  cases allocOk <;> simp [QSimRunner.Run]

/-- Witness for `c2_run_ok_iff_alloc` at a failing allocation. -/
theorem c2_run_ok_iff_alloc_witness :
    (QSimRunner.Run false [0] circuitOneGate).ok = false ∧
      QSimRunner.Run false [0] circuitOneGate = ⟨false, [], 1⟩ :=
  ⟨(c2_run_ok_iff_alloc false [0] circuitOneGate).1,
    (c2_run_ok_iff_alloc false [0] circuitOneGate).2 rfl⟩

/-! ## Claim C3 -/

/-- Claim C3, counterexample: for the measurement `(mask, bits) = (1, 0)` on
`stateIdx1` the surviving mass is zero (the only nonzero amplitude has basis
index 1, and `1 &&& 1 ≠ 0`), yet `CollapseState` succeeds (returns `true`):
the code never checks the computed norm. -/
theorem c3_zero_mass_reports_success :
    survivingMass 1 0 stateIdx1 = 0 ∧ (CollapseState 1 1 0 stateIdx1).1 = true := by
  constructor
  · have hm0 : GetZeroMaskAVX 0 1 0 0 = true := by decide
    have hm1 : GetZeroMaskAVX 0 1 0 1 = false := by decide
    have hm2 : GetZeroMaskAVX 0 1 0 2 = true := by decide
    have hm3 : GetZeroMaskAVX 0 1 0 3 = false := by decide
    have hm4 : GetZeroMaskAVX 0 1 0 4 = true := by decide
    have hm5 : GetZeroMaskAVX 0 1 0 5 = false := by decide
    have hm6 : GetZeroMaskAVX 0 1 0 6 = true := by decide
    have hm7 : GetZeroMaskAVX 0 1 0 7 = false := by decide
    simp only [survivingMass, stateIdx1]
    norm_num [Finset.sum_range_succ, maskload, hm0, hm1, hm2, hm3, hm4, hm5,
      hm6, hm7]
  · norm_num [CollapseState, rawSize, stateIdx1]

/-- Claim C3 (amended): `CollapseState` reports failure exactly on a raw-size
mismatch; the zero-surviving-mass case is NOT detected (the collapse then
scales by `1/sqrt 0` and still returns `true`, as
`c3_zero_mass_reports_success` shows). -/
theorem c3_collapse_ok_iff_size (num_qubits mask bits : ℕ) (s : RawState) :
    (CollapseState num_qubits mask bits s).1 = true ↔
      s.size = rawSize num_qubits := by
  by_cases h : s.size = rawSize num_qubits
  · simp [CollapseState, h]
  · simp [CollapseState, h]

/-! ## Claim C4 -/

/-- Lane `j` of the AVX zero mask answers whether basis index `i + j`
survives the measurement. -/
theorem zeroMask_lane (i mask bits j : ℕ) :
    GetZeroMaskAVX i mask bits j = true ↔ (i + j) &&& mask = bits := by
  by_cases h : j % 2 = 0
  · have h2 : 2 * (j / 2) = j := by omega
    simp [GetZeroMaskAVX, h, h2]
  · have h2 : 2 * (j / 2) + 1 = j := by omega
    simp [GetZeroMaskAVX, h, Nat.add_assoc, h2]

/-- Summing over `8 * B` flat lane indices equals summing blockwise. -/
theorem sum_range_eight (B : ℕ) (f : ℕ → ℝ) :
    Finset.sum (Finset.range (8 * B)) f =
      Finset.sum (Finset.range B) fun k =>
        Finset.sum (Finset.range 8) fun j => f (8 * k + j) := by
  induction B with
  | zero => simp
  | succ n ih =>
    have h8 : 8 * (n + 1) = 8 * n + 8 := by ring
    rw [h8, Finset.sum_range_add, ih,
      Finset.sum_range_succ (fun k => Finset.sum (Finset.range 8)
        fun j => f (8 * k + j)) n]

/-- Claim C4: after a successful `CollapseState(mask, bits)` on a buffer of
the correct raw size with positive surviving mass, every amplitude whose
basis index `i` has `(i &&& mask) ≠ bits` is zero, and the squared magnitudes
of all amplitudes (including the padding lanes, which the kernel processes
identically) sum to exactly 1 — in the idealised real-number semantics of the
two passes. -/
theorem c4_collapse_consistency (num_qubits mask bits : ℕ) (s : RawState)
    (hs : s.size = rawSize num_qubits)
    (hmass : 0 < survivingMass mask bits s) :
    (∀ i < s.size / 2, ¬(i &&& mask = bits) →
      GetAmpl (CollapseState num_qubits mask bits s).2 i = (0, 0)) ∧
    Finset.sum (Finset.range (s.size / 2)) (fun i =>
      (GetAmpl (CollapseState num_qubits mask bits s).2 i).1 ^ 2 +
        (GetAmpl (CollapseState num_qubits mask bits s).2 i).2 ^ 2) = 1 := by
  have h16 : s.size % 16 = 0 := by rw [hs]; exact rawSize_mod16 num_qubits
  have hval : ∀ p, ((CollapseState num_qubits mask bits s).2).val p =
      if p < s.size then
        maskload (GetZeroMaskAVX (8 * (p / 16)) mask bits (p % 16 % 8)) (s.val p) *
          (1 / Real.sqrt (survivingMass mask bits s))
      else s.val p := by
    intro p
    simp [CollapseState, hs]
  constructor
  · intro i hi hcond
    have hpr : 16 * (i / 8) + i % 8 < s.size := by omega
    have hpi : 16 * (i / 8) + i % 8 + 8 < s.size := by omega
    have hmask : GetZeroMaskAVX (8 * (i / 8)) mask bits (i % 8) = false := by
      cases hmk : GetZeroMaskAVX (8 * (i / 8)) mask bits (i % 8) with
      | false => rfl
      | true =>
        exfalso
        apply hcond
        have h := (zeroMask_lane (8 * (i / 8)) mask bits (i % 8)).1 hmk
        rwa [show 8 * (i / 8) + i % 8 = i from by omega] at h
    have d1 : (16 * (i / 8) + i % 8) / 16 = i / 8 := by omega
    have m1 : (16 * (i / 8) + i % 8) % 16 % 8 = i % 8 := by omega
    have d2 : (16 * (i / 8) + i % 8 + 8) / 16 = i / 8 := by omega
    have m2 : (16 * (i / 8) + i % 8 + 8) % 16 % 8 = i % 8 := by omega
    simp only [GetAmpl, hval, if_pos hpr, if_pos hpi, d1, m1, d2, m2, hmask,
      maskload]
    norm_num
  · have hsplit : s.size / 2 = 8 * (s.size / 16) := by omega
    have hterm : ∀ k < s.size / 16, ∀ j < 8,
        (GetAmpl (CollapseState num_qubits mask bits s).2 (8 * k + j)).1 ^ 2 +
          (GetAmpl (CollapseState num_qubits mask bits s).2 (8 * k + j)).2 ^ 2 =
        (maskload (GetZeroMaskAVX (8 * k) mask bits j) (s.val (16 * k + j)) ^ 2 +
          maskload (GetZeroMaskAVX (8 * k) mask bits j) (s.val (16 * k + 8 + j)) ^ 2) *
          (1 / Real.sqrt (survivingMass mask bits s)) ^ 2 := by
      intro k hk j hj
      have e1 : (8 * k + j) / 8 = k := by omega
      have e2 : (8 * k + j) % 8 = j := by omega
      have hpr : 16 * k + j < s.size := by omega
      have hpi : 16 * k + j + 8 < s.size := by omega
      have d1 : (16 * k + j) / 16 = k := by omega
      have m1 : (16 * k + j) % 16 % 8 = j := by omega
      have d2 : (16 * k + j + 8) / 16 = k := by omega
      have m2 : (16 * k + j + 8) % 16 % 8 = j := by omega
      have e3 : 16 * k + j + 8 = 16 * k + 8 + j := by ring
      simp only [GetAmpl, hval, e1, e2, if_pos hpr, if_pos hpi, d1, m1, d2, m2]
      rw [e3]
      ring
    rw [hsplit, sum_range_eight]
    have hcongr : (Finset.sum (Finset.range (s.size / 16)) fun k =>
        Finset.sum (Finset.range 8) fun j =>
          (GetAmpl (CollapseState num_qubits mask bits s).2 (8 * k + j)).1 ^ 2 +
            (GetAmpl (CollapseState num_qubits mask bits s).2 (8 * k + j)).2 ^ 2) =
        Finset.sum (Finset.range (s.size / 16)) (fun k =>
          Finset.sum (Finset.range 8) fun j =>
            (maskload (GetZeroMaskAVX (8 * k) mask bits j) (s.val (16 * k + j)) ^ 2 +
              maskload (GetZeroMaskAVX (8 * k) mask bits j)
                (s.val (16 * k + 8 + j)) ^ 2)) *
          (1 / Real.sqrt (survivingMass mask bits s)) ^ 2 := by
      rw [Finset.sum_mul]
      apply Finset.sum_congr rfl
      intro k hk
      rw [Finset.sum_mul]
      apply Finset.sum_congr rfl
      intro j hj
      exact hterm k (Finset.mem_range.1 hk) j (Finset.mem_range.1 hj)
    rw [hcongr]
    have hS : (Finset.sum (Finset.range (s.size / 16)) fun k =>
        Finset.sum (Finset.range 8) fun j =>
          (maskload (GetZeroMaskAVX (8 * k) mask bits j) (s.val (16 * k + j)) ^ 2 +
            maskload (GetZeroMaskAVX (8 * k) mask bits j)
              (s.val (16 * k + 8 + j)) ^ 2)) = survivingMass mask bits s := rfl
    rw [hS, div_pow, one_pow, Real.sq_sqrt hmass.le, mul_one_div,
      div_self hmass.ne']

/-- Witness for `c4_collapse_consistency` at the one-qubit |0⟩ buffer with
measurement `(mask, bits) = (1, 0)`: the surviving mass is 1 (positive),
amplitude 1 is zeroed, and the collapsed squared magnitudes sum to 1. -/
theorem c4_collapse_consistency_witness :
    0 < survivingMass 1 0 stateLive ∧
    GetAmpl (CollapseState 1 1 0 stateLive).2 1 = (0, 0) ∧
    Finset.sum (Finset.range (stateLive.size / 2)) (fun i =>
      (GetAmpl (CollapseState 1 1 0 stateLive).2 i).1 ^ 2 +
        (GetAmpl (CollapseState 1 1 0 stateLive).2 i).2 ^ 2) = 1 := by
  have hm0 : GetZeroMaskAVX 0 1 0 0 = true := by decide
  have hm1 : GetZeroMaskAVX 0 1 0 1 = false := by decide
  have hm2 : GetZeroMaskAVX 0 1 0 2 = true := by decide
  have hm3 : GetZeroMaskAVX 0 1 0 3 = false := by decide
  have hm4 : GetZeroMaskAVX 0 1 0 4 = true := by decide
  have hm5 : GetZeroMaskAVX 0 1 0 5 = false := by decide
  have hm6 : GetZeroMaskAVX 0 1 0 6 = true := by decide
  have hm7 : GetZeroMaskAVX 0 1 0 7 = false := by decide
  have hmassval : survivingMass 1 0 stateLive = 1 := by
    simp only [survivingMass, stateLive]
    norm_num [Finset.sum_range_succ, maskload, hm0, hm1, hm2, hm3, hm4, hm5,
      hm6, hm7]
  have hmass : 0 < survivingMass 1 0 stateLive := by rw [hmassval]; norm_num
  refine ⟨hmass, ?_, ?_⟩
  · exact (c4_collapse_consistency 1 1 0 stateLive
      (by norm_num [rawSize, stateLive]) hmass).1 1 (by norm_num [stateLive])
      (by decide)
  · exact (c4_collapse_consistency 1 1 0 stateLive
      (by norm_num [rawSize, stateLive]) hmass).2

/-! ## Claim C5 -/

/-- Claim C5 is violated by the code: on the time-ordered input
`gatesSharedPairs`, gate 2 (the 2-qubit gate on qubits (0,2)) appears in the
member lists of TWO different fused gates, and gate 3 (on qubits (1,2)) in
none, contradicting the partition property and the code's own comment
assertion `gates_lat[q0][last[q0]] == gates_lat[q1][last[q1]]`. -/
theorem c5_fuser_partition_violated :
    (((FuseGates 3 gatesSharedPairs []).1.map GateFused.gates).flatten.count 2 = 2) ∧
      (((FuseGates 3 gatesSharedPairs []).1.map GateFused.gates).flatten.count 3 = 0) := by
  decide

/-! ## Claim C8 -/

/-- Claim C8, counterexample: on the unfusible-split scenario the fuser does
NOT emit two fused gates. -/
theorem c8_unfusible_two_gates_false :
    ¬((FuseGates 1 gatesUnfusibleMid []).1.length = 2) := by decide

/-- Claim C8 (amended): on the unfusible-split scenario the fuser emits
exactly ONE fused gate, anchored at the unfusible gate (index 1), absorbing
the gate at t=0 before it and the gate at t=2 after it. -/
theorem c8_unfusible_single_fused_gate :
    FuseGates 1 gatesUnfusibleMid [] =
      ([⟨GateKind.unitary, 1, 1, [0], 1, [0, 1, 2]⟩], false) := by decide

/-! ## Claim C9 -/

/-- Claim C9: `StateSpaceAVX::Sample` is deterministic.  The random source
(`GenerateRandomValues`, from the external `util.h`) is modelled from the
spec as a pure function of `(num_samples, seed, norm)`; two runs on equal
buffers (same size, same slot values) with the same `num_samples` and `seed`
return identical bitstring lists. -/
theorem c9_sample_deterministic {α : Type} [LinearOrderedCommRing α]
    (num_qubits : ℕ) (grv : ℕ → ℕ → α → List α) (s1 s2 : RawStateG α)
    (num_samples seed : ℕ) (hsize : s1.size = s2.size)
    (hval : ∀ p, s1.val p = s2.val p) :
    Sample num_qubits grv s1 num_samples seed =
      Sample num_qubits grv s2 num_samples seed := by
  obtain ⟨n1, v1⟩ := s1
  obtain ⟨n2, v2⟩ := s2
  have hv : v1 = v2 := funext hval
  simp only at hsize
  subst hsize hv
  rfl

/-- Witness for `c9_sample_deterministic`: two different descriptions of the
same buffer yield the same samples. -/
theorem c9_sample_deterministic_witness :
    Sample 1 grvZero stateZ 1 0 = Sample 1 grvZero stateZ' 1 0 :=
  c9_sample_deterministic 1 grvZero stateZ stateZ' 1 0 rfl
    (fun p => by cases p <;> simp [stateZ, stateZ'])

/-! ## Claim C7 -/

/-- The generic (blockwise) branches of the two layout conversions are
mutually inverse permutations of each block. -/
theorem block_roundtrip (v : ℕ → ℝ) (size : ℕ) (h16 : size % 16 = 0) :
    ∀ p < size,
      n2iBlock (fun q => if q < size then i2nBlock v q else v q) p = v p := by
  intro p hp
  obtain ⟨k, t, ht, hpk⟩ : ∃ k t, t < 16 ∧ p = 16 * k + t :=
    ⟨p / 16, p % 16, Nat.mod_lt p (by norm_num), by omega⟩
  subst hpk
  have hdiv : ∀ c, c < 16 → (16 * k + c) / 16 = k := by intro c hc; omega
  have hmod : ∀ c, c < 16 → (16 * k + c) % 16 = c := by intro c hc; omega
  have hlt : ∀ c, c < 16 → 16 * k + c < size := by intro c hc; omega
  have hdiv0 : 16 * k / 16 = k := by omega
  have hmod0 : 16 * k % 16 = 0 := by omega
  have hlt0 : 16 * k < size := by omega
  simp only [n2iBlock, i2nBlock]
  interval_cases t <;>
    simp [hdiv, hmod, hlt, hdiv0, hmod0, hlt0, Nat.add_assoc]

/-- Claim C7, counterexample: on a one-qubit buffer of the correct raw size
whose padding slot 2 is nonzero, `InternalToNormalOrder` followed by
`NormalToInternalOrder` is NOT the identity: the conversions zero the padding
slots, so slot 2 comes back 0 instead of 5. -/
theorem c7_roundtrip_not_identity :
    ((NormalToInternalOrder 1 (InternalToNormalOrder 1 statePad).2).2).val 2 ≠
      statePad.val 2 := by
  norm_num [NormalToInternalOrder, InternalToNormalOrder, rawSize, statePad]

/-- Claim C7 (amended): the round trip
`internal_to_normal` then `normal_to_internal` restores every raw slot of
every buffer of the correct raw size whose padding amplitudes (logical
indices from `2^num_qubits` up to the lane count) are zero — i.e. of every
buffer satisfying the spec's own padding invariant.  (On buffers with
nonzero padding it fails for `num_qubits ∈ {1, 2}`:
`c7_roundtrip_not_identity`.) -/
theorem c7_roundtrip_on_padded_states (num_qubits : ℕ) (s : RawState)
    (hs : s.size = rawSize num_qubits)
    (hpad : ∀ i, 2 ^ num_qubits ≤ i → i < s.size / 2 → GetAmpl s i = (0, 0)) :
    ∀ p < s.size,
      ((NormalToInternalOrder num_qubits
        (InternalToNormalOrder num_qubits s).2).2).val p = s.val p := by
  intro p hp
  by_cases h1 : num_qubits = 1
  · subst h1
    have hsz : s.size = 16 := by simpa [rawSize] using hs
    have hpadv : ∀ i, 2 ≤ i → i < 8 → s.val i = 0 ∧ s.val (i + 8) = 0 := by
      intro i hi2 hi8
      have h := hpad i (by norm_num; omega) (by omega)
      simp only [GetAmpl] at h
      rw [show 16 * (i / 8) + i % 8 = i from by omega] at h
      exact ⟨congrArg Prod.fst h, congrArg Prod.snd h⟩
    have h2 := hpadv 2 (by norm_num) (by norm_num)
    have h3 := hpadv 3 (by norm_num) (by norm_num)
    have h4 := hpadv 4 (by norm_num) (by norm_num)
    have h5 := hpadv 5 (by norm_num) (by norm_num)
    have h6 := hpadv 6 (by norm_num) (by norm_num)
    have h7 := hpadv 7 (by norm_num) (by norm_num)
    norm_num at h2 h3 h4 h5 h6 h7
    rw [hsz] at hp
    simp only [InternalToNormalOrder, NormalToInternalOrder, hs]
    norm_num
    interval_cases p <;>
      norm_num [h2.1, h2.2, h3.1, h3.2, h4.1, h4.2, h5.1, h5.2, h6.1, h6.2,
        h7.1, h7.2]
  · by_cases h2q : num_qubits = 2
    · subst h2q
      have hsz : s.size = 16 := by simpa [rawSize] using hs
      have hpadv : ∀ i, 4 ≤ i → i < 8 → s.val i = 0 ∧ s.val (i + 8) = 0 := by
        intro i hi4 hi8
        have h := hpad i (by norm_num; omega) (by omega)
        simp only [GetAmpl] at h
        rw [show 16 * (i / 8) + i % 8 = i from by omega] at h
        exact ⟨congrArg Prod.fst h, congrArg Prod.snd h⟩
      have h4 := hpadv 4 (by norm_num) (by norm_num)
      have h5 := hpadv 5 (by norm_num) (by norm_num)
      have h6 := hpadv 6 (by norm_num) (by norm_num)
      have h7 := hpadv 7 (by norm_num) (by norm_num)
      norm_num at h4 h5 h6 h7
      rw [hsz] at hp
      simp only [InternalToNormalOrder, NormalToInternalOrder, hs]
      norm_num
      interval_cases p <;>
        norm_num [h4.1, h4.2, h5.1, h5.2, h6.1, h6.2, h7.1, h7.2]
    · have h16 : s.size % 16 = 0 := by rw [hs]; exact rawSize_mod16 num_qubits
      simp only [InternalToNormalOrder, NormalToInternalOrder, hs, h1, h2q]
      norm_num [h1, h2q]
      have hp' : p < rawSize num_qubits := by rw [← hs]; exact hp
      rw [if_pos hp']
      exact block_roundtrip s.val (rawSize num_qubits) (rawSize_mod16 num_qubits)
        p hp'

/-- Witness for `c7_roundtrip_on_padded_states` at the one-qubit |0⟩ buffer,
slot 0. -/
theorem c7_roundtrip_on_padded_states_witness :
    ((NormalToInternalOrder 1 (InternalToNormalOrder 1 stateLive).2).2).val 0 =
      stateLive.val 0 :=
  c7_roundtrip_on_padded_states 1 stateLive (by norm_num [rawSize, stateLive])
    (by
      intro i hi2 hi8
      norm_num [stateLive] at hi8
      have hidx : 16 * (i / 8) + i % 8 = i := by omega
      simp only [stateLive, GetAmpl, hidx]
      rw [if_neg (by omega), if_neg (by omega)])
    0 (by norm_num [stateLive])

/-! ## Claim C6 -/

/-- Claim C6, counterexample: one fused gate at time 0 but two requested
measure times `[0, 1]` — the callback is invoked only once (for entry 0), not
once per entry: after the final gate is applied the loop ends, and entry 1
never receives a callback. -/
theorem c6_callback_count_mismatch :
    (QSimRunner.Run true [0, 1] circuitOneGate).trace.length = 1 ∧
      ([0, 1] : List ℕ).length = 2 := by decide

/-- The window indices recorded by the runner loop are consecutive starting
from the initial `cur`. -/
theorem runLoopAux_map_fst (fused : List GateFused) (times : List ℕ) :
    ∀ fuel i cur, (QSimRunner.runLoopAux fused times fuel i cur).map Prod.fst =
      List.range' cur (QSimRunner.runLoopAux fused times fuel i cur).length := by
  intro fuel
  induction fuel with
  | zero => intro i cur; simp [QSimRunner.runLoopAux]
  | succ n ih =>
    intro i cur
    by_cases h1 : fused.length ≤ i
    · simp [QSimRunner.runLoopAux, h1]
    · by_cases h2 : i = fused.length - 1 ∨
          times.getD cur 0 < (fused.getD (i + 1) fg0).time
      · simp only [QSimRunner.runLoopAux, if_neg h1, if_pos h2, List.map_cons,
          List.length_cons, List.range'_succ]
        rw [ih]
      · simp only [QSimRunner.runLoopAux, if_neg h1, if_neg h2]
        exact ih _ _

/-- Every recorded callback `(cur, i)` was emitted at a gate index `i` that is
in range and satisfies the runner's guard: `i` is the final fused gate or the
next fused gate's time exceeds `times[cur]`. -/
theorem runLoopAux_mem_guard (fused : List GateFused) (times : List ℕ) :
    ∀ fuel i cur p, p ∈ QSimRunner.runLoopAux fused times fuel i cur →
      p.2 < fused.length ∧ (p.2 = fused.length - 1 ∨
        times.getD p.1 0 < (fused.getD (p.2 + 1) fg0).time) := by
  intro fuel
  induction fuel with
  | zero => intro i cur p hp; simp [QSimRunner.runLoopAux] at hp
  | succ n ih =>
    intro i cur p hp
    by_cases h1 : fused.length ≤ i
    · simp [QSimRunner.runLoopAux, h1] at hp
    · by_cases h2 : i = fused.length - 1 ∨
          times.getD cur 0 < (fused.getD (i + 1) fg0).time
      · simp only [QSimRunner.runLoopAux, if_neg h1, if_pos h2,
          List.mem_cons] at hp
        rcases hp with hp | hp
        · subst hp
          exact ⟨by omega, h2⟩
        · exact ih _ _ _ hp
      · simp only [QSimRunner.runLoopAux, if_neg h1, if_neg h2] at hp
        exact ih _ _ _ hp

/-- Claim C6 (amended): a successful `QSimRunner::Run` invokes the
measurement callback with consecutive window indices 0, 1, 2, …, and the
invocation with index `cur` happens right after applying fused gate `i` where
`i` is the final fused gate or the next fused gate's time exceeds
`times_to_measure_at[cur]`.  (It is NOT exactly once per entry: entries whose
window contains no fused gate are skipped, as `c6_callback_count_mismatch`
shows.) -/
theorem c6_callback_order_and_guard (times : List ℕ) (c : Circuit) (p : ℕ × ℕ)
    (hp : p ∈ (QSimRunner.Run true times c).trace) :
    ((QSimRunner.Run true times c).trace.map Prod.fst =
        List.range (QSimRunner.Run true times c).trace.length) ∧
      p.2 < (FuseGates c.num_qubits c.gates times).1.length ∧
      (p.2 = (FuseGates c.num_qubits c.gates times).1.length - 1 ∨
        times.getD p.1 0 <
          ((FuseGates c.num_qubits c.gates times).1.getD (p.2 + 1) fg0).time) := by
  have htr : (QSimRunner.Run true times c).trace =
      QSimRunner.runLoop (FuseGates c.num_qubits c.gates times).1 times := by
    simp [QSimRunner.Run]
  rw [htr] at hp ⊢
  refine ⟨?_, runLoopAux_mem_guard _ _ _ _ _ p hp⟩
  rw [List.range_eq_range']
  exact runLoopAux_map_fst _ _ _ _ _

/-- Witness for `c6_callback_order_and_guard`: two gates at times 0 and 2
with measure times `[0, 1, 2]`; the recorded callback `(1, 1)` satisfies the
guard and the indices are `[0, 1]`. -/
theorem c6_callback_order_and_guard_witness :
    ((QSimRunner.Run true [0, 1, 2] circuitGapped).trace.map Prod.fst =
        List.range (QSimRunner.Run true [0, 1, 2] circuitGapped).trace.length) ∧
      (1, 1).2 < (FuseGates circuitGapped.num_qubits circuitGapped.gates
          [0, 1, 2]).1.length ∧
      ((1, 1).2 = (FuseGates circuitGapped.num_qubits circuitGapped.gates
          [0, 1, 2]).1.length - 1 ∨
        ([0, 1, 2] : List ℕ).getD (1, 1).1 0 <
          ((FuseGates circuitGapped.num_qubits circuitGapped.gates
            [0, 1, 2]).1.getD ((1, 1).2 + 1) fg0).time) :=
  c6_callback_order_and_guard [0, 1, 2] circuitGapped (1, 1) (by decide)

/-! ## Claim C10 -/

/-- Claim C10 is violated by the code: the emission loop evaluates
`rs[m] < csum` BEFORE testing `m < num_samples`, so once all `num_samples`
samples are emitted the loop condition still reads `rs[num_samples]`.  On a
one-sample run over the basis state |0⟩ the read log contains index 1 while
the draw vector has length 1. -/
theorem c10_sample_reads_past_end :
    (1 ∈ sampleReadLog 1 grvZero stateZ 1 0) ∧
      (grvZero 1 0 (sampleNorm stateZ)).length = 1 := by decide

end Qsim
